import Mathlib

/-!
Shallow embedding of the dock state machine from
`src/crates/workspace/src/dock.rs` (struct `Dock` and its methods).

Panels are external objects identified by a numeric id (identity equality,
mirroring `PanelHandle::id`).  Their mutable `zoomed` / `active` flags live
outside the dock, in a total map from panel id to `PanelState`, because the
dock reads and writes them only through the panel handle
(`is_zoomed` / `set_zoomed` / `set_active`).  Panel sizes are `f32` in the
source but are only ever stored and returned, never computed with, so they
are embedded as `Int`.

Every mutating operation returns the updated state together with the list
of observable effects it performed, in order: `cx.notify()` calls,
`set_active` / `set_zoomed` panel callbacks, and `cx.focus` requests.
-/

namespace DockSpec

inductive DockPosition where
  | Left
  | Bottom
  | Right
deriving DecidableEq, Repr

/-- The externally owned mutable flags of one panel object. -/
structure PanelState where
  zoomed : Bool
  active : Bool
deriving DecidableEq, Repr

/-- `PanelEntry` from the source: a panel handle (by id) and its cached size.
The context menu and subscriptions carry no dock-visible state. -/
structure PanelEntry where
  panel : Nat
  size : Int
deriving DecidableEq, Repr

/-- The `Dock` struct: position, ordered entries, open flag, active index. -/
structure Dock where
  position : DockPosition
  panel_entries : List PanelEntry
  is_open : Bool
  active_panel_index : Nat
deriving DecidableEq, Repr

/-- All panel objects in the world, by id. -/
abbrev PanelMap := Nat → PanelState

/-- A dock together with the states of the panel objects it may touch. -/
structure DockState where
  dock : Dock
  panels : PanelMap

/-- Observable side effects of a dock operation. -/
inductive Effect where
  | notify
  | setActive (id : Nat) (active : Bool)
  | setZoomed (id : Nat) (zoomed : Bool)
  | focus (id : Nat)
deriving DecidableEq, Repr

/-- `Dock::new`: closed, no panels, active index 0. -/
def Dock.new (pos : DockPosition) : Dock :=
  { position := pos, panel_entries := [], is_open := false, active_panel_index := 0 }

/-- Initial world: a freshly constructed dock, all panel flags false. -/
def initState : DockState :=
  { dock := Dock.new DockPosition.Left, panels := fun _ => ⟨false, false⟩ }

/-- `panel.set_zoomed(b)`: update one panel object's zoom flag. -/
def setZoomedPanel (m : PanelMap) (id : Nat) (b : Bool) : PanelMap :=
  fun j => if j = id then { m id with zoomed := b } else m j

/-- `panel.set_active(b)`: update one panel object's active flag. -/
def setActivePanel (m : PanelMap) (id : Nat) (b : Bool) : PanelMap :=
  fun j => if j = id then { m id with active := b } else m j

/-- `Iterator::position`: index of the first entry satisfying the predicate. -/
def position? (p : PanelEntry → Bool) : List PanelEntry → Option Nat
  | [] => none
  | e :: rest => if p e then some 0 else (position? p rest).map (· + 1)

namespace DockState

/-- `Dock::set_open`: no-op when the flag already has the requested value;
otherwise flip it, tell the entry at the active index (if any) about the
new active status, and notify. -/
def set_open (b : Bool) (s : DockState) : DockState × List Effect :=
  if b ≠ s.dock.is_open then
    let d := { s.dock with is_open := b }
    match s.dock.panel_entries[s.dock.active_panel_index]? with
    | some entry =>
        ({ dock := d, panels := setActivePanel s.panels entry.panel b },
         [Effect.setActive entry.panel b, Effect.notify])
    | none => ({ s with dock := d }, [Effect.notify])
  else (s, [])

/-- `Dock::toggle_open`: `set_open(!is_open)` followed by an extra notify. -/
def toggle_open (s : DockState) : DockState × List Effect :=
  let r := set_open (!s.dock.is_open) s
  (r.1, r.2 ++ [Effect.notify])

/-- One iteration of the loop in `Dock::set_panel_zoomed`. -/
def zoomStep (target : Nat) (z : Bool) (acc : PanelMap × List Effect)
    (e : PanelEntry) : PanelMap × List Effect :=
  if e.panel = target then
    if z ≠ (acc.1 e.panel).zoomed then
      (setZoomedPanel acc.1 e.panel z, acc.2 ++ [Effect.setZoomed e.panel z])
    else acc
  else if (acc.1 e.panel).zoomed then
    (setZoomedPanel acc.1 e.panel false, acc.2 ++ [Effect.setZoomed e.panel false])
  else acc

/-- `Dock::set_panel_zoomed`: walk all entries; on the entry matching the
target set zoom to the requested value when it differs, on every other
entry clear zoom when set; then notify unconditionally. -/
def set_panel_zoomed (target : Nat) (z : Bool) (s : DockState) :
    DockState × List Effect :=
  let r := s.dock.panel_entries.foldl (zoomStep target z) (s.panels, [])
  ({ s with panels := r.1 }, r.2 ++ [Effect.notify])

/-- One iteration of the loop in `Dock::zoom_out`. -/
def zoomOutStep (acc : PanelMap × List Effect) (e : PanelEntry) :
    PanelMap × List Effect :=
  if (acc.1 e.panel).zoomed then
    (setZoomedPanel acc.1 e.panel false, acc.2 ++ [Effect.setZoomed e.panel false])
  else acc

/-- `Dock::zoom_out`: clear zoom on every entry whose panel reports zoomed. -/
def zoom_out (s : DockState) : DockState × List Effect :=
  let r := s.dock.panel_entries.foldl zoomOutStep (s.panels, [])
  ({ s with panels := r.1 }, r.2)

/-- `Dock::add_panel`: append an entry seeded with the panel's default size,
then notify.  (The two subscriptions it installs are modelled separately by
`handle_panel_event`.) -/
def add_panel (id : Nat) (size : Int) (s : DockState) : DockState × List Effect :=
  ({ s with dock :=
      { s.dock with panel_entries := s.dock.panel_entries ++ [⟨id, size⟩] } },
   [Effect.notify])

/-- The index bookkeeping `Dock::remove_panel` performs before removing the
entry: reset to 0 and `set_open(false)` when the found index is the active
one, decrement when it is below the active one. -/
def removeAdjust (ix : Nat) (s : DockState) : DockState × List Effect :=
  if ix = s.dock.active_panel_index then
    set_open false { s with dock := { s.dock with active_panel_index := 0 } }
  else if ix < s.dock.active_panel_index then
    ({ s with dock :=
        { s.dock with active_panel_index := s.dock.active_panel_index - 1 } },
     ([] : List Effect))
  else (s, [])

/-- `Dock::remove_panel`: locate the first entry with the panel's id; if the
index equals the active index, reset the index to 0 and `set_open(false)`
(still before removal, as in the source); if it is below the active index,
decrement the active index; then remove the entry and notify.  No-op when
the panel is not registered. -/
def remove_panel (id : Nat) (s : DockState) : DockState × List Effect :=
  match position? (fun e => e.panel = id) s.dock.panel_entries with
  | some ix =>
    (({ (removeAdjust ix s).1 with dock :=
        { (removeAdjust ix s).1.dock with panel_entries :=
            (removeAdjust ix s).1.dock.panel_entries.eraseIdx ix } }),
     (removeAdjust ix s).2 ++ [Effect.notify])
  | none => (s, [])

/-- `Dock::panels_len`. -/
def panels_len (s : DockState) : Nat :=
  s.dock.panel_entries.length

/-- `Dock::activate_panel`: no-op when the index already equals the active
index; otherwise deactivate the entry at the old index (if it exists),
store the new index, activate the entry at the new index (if it exists),
and notify. -/
def activate_panel (ix : Nat) (s : DockState) : DockState × List Effect :=
  if ix ≠ s.dock.active_panel_index then
    let r1 :=
      match s.dock.panel_entries[s.dock.active_panel_index]? with
      | some entry =>
          (setActivePanel s.panels entry.panel false,
           [Effect.setActive entry.panel false])
      | none => (s.panels, ([] : List Effect))
    let d := { s.dock with active_panel_index := ix }
    let r2 :=
      match d.panel_entries[ix]? with
      | some entry =>
          (setActivePanel r1.1 entry.panel true,
           [Effect.setActive entry.panel true])
      | none => (r1.1, ([] : List Effect))
    ({ dock := d, panels := r2.1 }, r1.2 ++ r2.2 ++ [Effect.notify])
  else (s, [])

/-- `Dock::active_entry`: the entry at the active index, only when open. -/
def active_entry (s : DockState) : Option PanelEntry :=
  if s.dock.is_open then s.dock.panel_entries[s.dock.active_panel_index]?
  else none

/-- `Dock::active_panel`: the active entry's panel, only when open. -/
def active_panel (s : DockState) : Option Nat :=
  (active_entry s).map (fun e => e.panel)

/-- `Dock::zoomed_panel`: the active entry's panel, when it reports zoomed. -/
def zoomed_panel (s : DockState) : Option Nat :=
  match active_entry s with
  | some entry => if (s.panels entry.panel).zoomed then some entry.panel else none
  | none => none

/-- `Dock::panel_size`: stored size of the first entry matching the panel. -/
def panel_size (id : Nat) (s : DockState) : Option Int :=
  (s.dock.panel_entries.find? (fun e => e.panel = id)).map (fun e => e.size)

/-- `iter_mut().find`: overwrite the size of the first matching entry. -/
def resizeFirst (id : Nat) (size : Int) : List PanelEntry → List PanelEntry
  | [] => []
  | e :: rest =>
    if e.panel = id then { e with size := size } :: rest
    else e :: resizeFirst id size rest

/-- `Dock::resize_panel`: set the first matching entry's size; no notify. -/
def resize_panel (id : Nat) (size : Int) (s : DockState) : DockState × List Effect :=
  ({ s with dock :=
      { s.dock with panel_entries := resizeFirst id size s.dock.panel_entries } },
   [])

/-- `Dock::active_panel_size`: size at the active index, only when open. -/
def active_panel_size (s : DockState) : Option Int :=
  if s.dock.is_open then
    (s.dock.panel_entries[s.dock.active_panel_index]?).map (fun e => e.size)
  else none

/-- Overwrite the size of the entry at one index, if it exists. -/
def setSizeAt (size : Int) : List PanelEntry → Nat → List PanelEntry
  | [], _ => []
  | e :: rest, 0 => { e with size := size } :: rest
  | e :: rest, Nat.succ n => e :: setSizeAt size rest n

/-- `Dock::resize_active_panel`: set the size at the active index and notify
when such an entry exists. -/
def resize_active_panel (size : Int) (s : DockState) : DockState × List Effect :=
  match s.dock.panel_entries[s.dock.active_panel_index]? with
  | some _ =>
    ({ s with dock :=
        { s.dock with panel_entries := setSizeAt size s.dock.panel_entries s.dock.active_panel_index } },
     [Effect.notify])
  | none => (s, [])

/-- The event-reaction subscription installed by `Dock::add_panel`, for a
panel whose event classifies as `should_activate_on_event` /
`should_close_on_event` with the given truth values: an activating event
opens the dock, activates the panel's index and focuses it; a closing event
closes the dock only when the panel is the active one. -/
def handle_panel_event (id : Nat) (shouldActivate shouldClose : Bool)
    (s : DockState) : DockState × List Effect :=
  if shouldActivate then
    match position? (fun e => e.panel = id) s.dock.panel_entries with
    | some ix =>
      let r1 := set_open true s
      let r2 := activate_panel ix r1.1
      (r2.1, r1.2 ++ r2.2 ++ [Effect.focus id])
    | none => (s, [])
  else if shouldClose ∧ active_panel s = some id then
    set_open false s
  else (s, [])

end DockState

/-- The dock operations named by the spec's invariant I1, as a syntax. -/
inductive Op where
  | addPanel (id : Nat) (size : Int)
  | removePanel (id : Nat)
  | activatePanel (ix : Nat)
  | setOpen (b : Bool)
  | setPanelZoomed (id : Nat) (zoomed : Bool)
  | zoomOut
  | resizePanel (id : Nat) (size : Int)
  | resizeActivePanel (size : Int)
deriving DecidableEq, Repr

/-- Interpret one operation. -/
def applyOp (op : Op) (s : DockState) : DockState × List Effect :=
  match op with
  | Op.addPanel id size => DockState.add_panel id size s
  | Op.removePanel id => DockState.remove_panel id s
  | Op.activatePanel ix => DockState.activate_panel ix s
  | Op.setOpen b => DockState.set_open b s
  | Op.setPanelZoomed id z => DockState.set_panel_zoomed id z s
  | Op.zoomOut => DockState.zoom_out s
  | Op.resizePanel id size => DockState.resize_panel id size s
  | Op.resizeActivePanel size => DockState.resize_active_panel size s

/-- Run a sequence of operations, keeping only the final state. -/
def runOps (ops : List Op) (s : DockState) : DockState :=
  ops.foldl (fun t op => (applyOp op t).1) s

/-- Run a sequence of operations, accumulating all effects in order. -/
def runOpsE (ops : List Op) (s : DockState) : DockState × List Effect :=
  ops.foldl (fun acc op =>
    let r := applyOp op acc.1
    (r.1, acc.2 ++ r.2)) (s, [])

/-- Every `activatePanel` in the sequence uses an index that is in bounds at
the moment it runs (the caller-discipline precondition of §7 of the spec). -/
def safeOps : List Op → DockState → Bool
  | [], _ => true
  | op :: rest, s =>
    (match op with
     | Op.activatePanel ix => decide (ix < s.dock.panel_entries.length)
     | _ => true) && safeOps rest (applyOp op s).1

namespace DockState

theorem set_open_entries (b : Bool) (s : DockState) :
    (set_open b s).1.dock.panel_entries = s.dock.panel_entries := by
  unfold set_open
  split
  · split <;> rfl
  · rfl

theorem set_open_index (b : Bool) (s : DockState) :
    (set_open b s).1.dock.active_panel_index = s.dock.active_panel_index := by
  unfold set_open
  split
  · split <;> rfl
  · rfl

theorem set_open_position (b : Bool) (s : DockState) :
    (set_open b s).1.dock.position = s.dock.position := by
  unfold set_open
  split
  · split <;> rfl
  · rfl

theorem set_open_is_open (b : Bool) (s : DockState) :
    (set_open b s).1.dock.is_open = b := by
  unfold set_open
  split
  · split <;> rfl
  · simp_all

theorem set_open_self (s : DockState) :
    set_open s.dock.is_open s = (s, []) := by
  simp [set_open]

theorem activate_panel_entries (ix : Nat) (s : DockState) :
    (activate_panel ix s).1.dock.panel_entries = s.dock.panel_entries := by
  unfold activate_panel
  split
  · split <;> rfl
  · rfl

theorem activate_panel_index (ix : Nat) (s : DockState) :
    (activate_panel ix s).1.dock.active_panel_index = ix := by
  unfold activate_panel
  split
  · split <;> rfl
  · simp_all

theorem activate_panel_is_open (ix : Nat) (s : DockState) :
    (activate_panel ix s).1.dock.is_open = s.dock.is_open := by
  unfold activate_panel
  split
  · split <;> rfl
  · rfl

theorem activate_panel_self (s : DockState) :
    activate_panel s.dock.active_panel_index s = (s, []) := by
  simp [activate_panel]

theorem set_panel_zoomed_dock (target : Nat) (z : Bool) (s : DockState) :
    (set_panel_zoomed target z s).1.dock = s.dock := rfl

theorem zoom_out_dock (s : DockState) :
    (zoom_out s).1.dock = s.dock := rfl

end DockState

theorem position?_some_lt {p : PanelEntry → Bool} :
    ∀ {l : List PanelEntry} {k : Nat}, position? p l = some k → k < l.length := by
  intro l
  induction l with
  | nil => intro k h; simp [position?] at h
  | cons e rest ih =>
    intro k h
    simp only [position?] at h
    by_cases hp : p e
    · simp [hp] at h
      simp only [List.length_cons]
      omega
    · simp [hp] at h
      obtain ⟨m, hm, rfl⟩ := h
      have := ih hm
      simp only [List.length_cons]
      omega

theorem position?_eq_none {p : PanelEntry → Bool} :
    ∀ {l : List PanelEntry}, (∀ e ∈ l, ¬ p e) → position? p l = none := by
  intro l
  induction l with
  | nil => intro _; rfl
  | cons e rest ih =>
    intro h
    have he : ¬ p e := h e (by simp)
    simp only [position?, if_neg he, ih fun x hx => h x (by simp [hx])]
    rfl

theorem position?_some_mem {p : PanelEntry → Bool} :
    ∀ {l : List PanelEntry} {k : Nat}, position? p l = some k →
      ∃ e, l[k]? = some e ∧ p e = true := by
  intro l
  induction l with
  | nil => intro k h; simp [position?] at h
  | cons e rest ih =>
    intro k h
    simp only [position?] at h
    by_cases hp : p e
    · simp [hp] at h
      exact ⟨e, by simp [← h], hp⟩
    · simp [hp] at h
      obtain ⟨m, hm, rfl⟩ := h
      obtain ⟨x, hx, hpx⟩ := ih hm
      exact ⟨x, by simpa using hx, hpx⟩

namespace DockState

theorem setZoomedPanel_same (m : PanelMap) (id : Nat) (b : Bool) :
    (setZoomedPanel m id b id).zoomed = b := by
  unfold setZoomedPanel
  rw [if_pos rfl]

theorem setZoomedPanel_other (m : PanelMap) (id j : Nat) (b : Bool) (h : j ≠ id) :
    setZoomedPanel m id b j = m j := by
  unfold setZoomedPanel
  rw [if_neg h]

theorem zoomStep_other (t : Nat) (z : Bool) (acc : PanelMap × List Effect)
    (e : PanelEntry) (j : Nat) (h : j ≠ e.panel) :
    (zoomStep t z acc e).1 j = acc.1 j := by
  unfold zoomStep
  split_ifs <;> first | rfl | exact setZoomedPanel_other _ _ _ _ h

theorem zoomFold_zoomed (t : Nat) (z : Bool) :
    ∀ (l : List PanelEntry) (acc : PanelMap × List Effect) (j : Nat),
      ((l.foldl (zoomStep t z) acc).1 j).zoomed =
        if l.any (fun e => e.panel = j) then (if j = t then z else false)
        else (acc.1 j).zoomed := by
  intro l
  induction l with
  | nil => intro acc j; simp
  | cons e rest ih =>
    intro acc j
    rw [List.foldl_cons, ih]
    cases hr : rest.any (fun e => decide (e.panel = j)) with
    | true => simp [List.any_cons, hr]
    | false =>
      simp only [List.any_cons, hr, Bool.or_false]
      by_cases hej : e.panel = j
      · subst hej
        simp only [decide_eq_true_eq, if_pos rfl, Bool.false_eq_true, if_false]
        by_cases het : e.panel = t
        · subst het
          rw [if_pos rfl]
          unfold zoomStep
          rw [if_pos rfl]
          by_cases hz : z ≠ (acc.1 e.panel).zoomed
          · rw [if_pos hz]
            exact setZoomedPanel_same _ _ _
          · rw [if_neg hz]
            simp only [ne_eq, not_not] at hz
            exact hz.symm
        · rw [if_neg het]
          unfold zoomStep
          rw [if_neg het]
          by_cases hcur : (acc.1 e.panel).zoomed = true
          · rw [if_pos hcur]
            exact setZoomedPanel_same _ _ _
          · rw [if_neg hcur]
            exact Bool.eq_false_iff.mpr hcur
      · have h1 : (decide (e.panel = j) : Bool) = false := by simp [hej]
        simp only [h1, Bool.false_eq_true, if_false]
        rw [zoomStep_other t z acc e j (fun h => hej h.symm)]

theorem zoomOutStep_other (acc : PanelMap × List Effect) (e : PanelEntry)
    (j : Nat) (h : j ≠ e.panel) :
    (zoomOutStep acc e).1 j = acc.1 j := by
  unfold zoomOutStep
  split_ifs <;> first | rfl | exact setZoomedPanel_other _ _ _ _ h

theorem zoomOutFold_zoomed :
    ∀ (l : List PanelEntry) (acc : PanelMap × List Effect) (j : Nat),
      ((l.foldl zoomOutStep acc).1 j).zoomed =
        if l.any (fun e => e.panel = j) then false
        else (acc.1 j).zoomed := by
  intro l
  induction l with
  | nil => intro acc j; simp
  | cons e rest ih =>
    intro acc j
    rw [List.foldl_cons, ih]
    cases hr : rest.any (fun e => decide (e.panel = j)) with
    | true => simp [List.any_cons, hr]
    | false =>
      simp only [List.any_cons, hr, Bool.or_false]
      by_cases hej : e.panel = j
      · subst hej
        simp only [decide_eq_true_eq, if_pos rfl, Bool.false_eq_true, if_false]
        unfold zoomOutStep
        split_ifs with h1
        · exact setZoomedPanel_same _ _ _
        · exact Bool.eq_false_iff.mpr h1
      · have h1 : (decide (e.panel = j) : Bool) = false := by simp [hej]
        simp only [h1, Bool.false_eq_true, if_false]
        rw [zoomOutStep_other acc e j (fun h => hej h.symm)]

theorem zoomFold_no_target_effect (t : Nat) (z : Bool) :
    ∀ (l : List PanelEntry) (acc : PanelMap × List Effect),
      (acc.1 t).zoomed = z → (∀ c, Effect.setZoomed t c ∉ acc.2) →
      ∀ c, Effect.setZoomed t c ∉ (l.foldl (zoomStep t z) acc).2 := by
  intro l
  induction l with
  | nil => intro acc h1 h2 c; exact h2 c
  | cons e rest ih =>
    intro acc h1 h2 c
    rw [List.foldl_cons]
    by_cases het : e.panel = t
    · have hstep : zoomStep t z acc e = acc := by
        subst het
        simp [zoomStep, h1]
      rw [hstep]
      exact ih acc h1 h2 c
    · unfold zoomStep
      rw [if_neg het]
      by_cases hcur : (acc.1 e.panel).zoomed = true
      · rw [if_pos hcur]
        refine ih _ ?_ ?_ c
        · show (setZoomedPanel acc.1 e.panel false t).zoomed = z
          rw [setZoomedPanel_other _ _ _ _ (fun h : t = e.panel => het h.symm)]
          exact h1
        · intro d
          simp only [List.mem_append, List.mem_singleton]
          rintro (hd | hd)
          · exact h2 d hd
          · injection hd with hd1 hd2
            exact het hd1.symm
      · rw [if_neg hcur]
        exact ih acc h1 h2 c

theorem set_panel_zoomed_zoomed_mem (t j : Nat) (z : Bool) (s : DockState)
    (hj : ∃ e ∈ s.dock.panel_entries, e.panel = j) :
    ((set_panel_zoomed t z s).1.panels j).zoomed = if j = t then z else false := by
  show ((s.dock.panel_entries.foldl (zoomStep t z) (s.panels, [])).1 j).zoomed = _
  rw [zoomFold_zoomed]
  rw [if_pos (by simpa [List.any_eq_true] using hj)]

theorem zoom_out_zoomed_mem (j : Nat) (s : DockState)
    (hj : ∃ e ∈ s.dock.panel_entries, e.panel = j) :
    ((zoom_out s).1.panels j).zoomed = false := by
  show ((s.dock.panel_entries.foldl zoomOutStep (s.panels, [])).1 j).zoomed = false
  rw [zoomOutFold_zoomed]
  rw [if_pos (by simpa [List.any_eq_true] using hj)]

theorem remove_panel_not_found (id : Nat) (s : DockState)
    (h : position? (fun e => e.panel = id) s.dock.panel_entries = none) :
    remove_panel id s = (s, []) := by
  unfold remove_panel
  rw [h]

theorem removeAdjust_entries (ix : Nat) (s : DockState) :
    (removeAdjust ix s).1.dock.panel_entries = s.dock.panel_entries := by
  unfold removeAdjust
  split_ifs with h1 h2
  · exact set_open_entries _ _
  · rfl
  · rfl

theorem removeAdjust_eq (ix : Nat) (s : DockState)
    (hk : ix = s.dock.active_panel_index) :
    (removeAdjust ix s).1.dock.active_panel_index = 0 ∧
    (removeAdjust ix s).1.dock.is_open = false := by
  unfold removeAdjust
  rw [if_pos hk]
  exact ⟨set_open_index _ _, set_open_is_open _ _⟩

theorem removeAdjust_lt (ix : Nat) (s : DockState)
    (hk : ix < s.dock.active_panel_index) :
    (removeAdjust ix s).1.dock.active_panel_index =
      s.dock.active_panel_index - 1 ∧
    (removeAdjust ix s).1.dock.is_open = s.dock.is_open := by
  unfold removeAdjust
  rw [if_neg (by omega), if_pos hk]
  exact ⟨rfl, rfl⟩

theorem removeAdjust_gt (ix : Nat) (s : DockState)
    (hk : s.dock.active_panel_index < ix) :
    removeAdjust ix s = (s, []) := by
  unfold removeAdjust
  rw [if_neg (by omega), if_neg (by omega)]

theorem remove_panel_found (id : Nat) (s : DockState) (k : Nat)
    (h : position? (fun e => e.panel = id) s.dock.panel_entries = some k) :
    (remove_panel id s).1.dock.panel_entries = s.dock.panel_entries.eraseIdx k ∧
    (k = s.dock.active_panel_index →
      (remove_panel id s).1.dock.active_panel_index = 0 ∧
      (remove_panel id s).1.dock.is_open = false) ∧
    (k < s.dock.active_panel_index →
      (remove_panel id s).1.dock.active_panel_index = s.dock.active_panel_index - 1 ∧
      (remove_panel id s).1.dock.is_open = s.dock.is_open) ∧
    (s.dock.active_panel_index < k →
      (remove_panel id s).1.dock.active_panel_index = s.dock.active_panel_index ∧
      (remove_panel id s).1.dock.is_open = s.dock.is_open) := by
  have hent : (remove_panel id s).1.dock.panel_entries =
      (removeAdjust k s).1.dock.panel_entries.eraseIdx k := by
    unfold remove_panel
    rw [h]
  have hidx : (remove_panel id s).1.dock.active_panel_index =
      (removeAdjust k s).1.dock.active_panel_index := by
    unfold remove_panel
    rw [h]
  have hop : (remove_panel id s).1.dock.is_open =
      (removeAdjust k s).1.dock.is_open := by
    unfold remove_panel
    rw [h]
  refine ⟨?_, fun hk => ?_, fun hk => ?_, fun hk => ?_⟩
  · rw [hent, removeAdjust_entries]
  · rw [hidx, hop]
    exact removeAdjust_eq k s hk
  · rw [hidx, hop]
    exact removeAdjust_lt k s hk
  · rw [hidx, hop, removeAdjust_gt k s hk]
    exact ⟨rfl, rfl⟩

theorem resizeFirst_length (id : Nat) (size : Int) :
    ∀ l : List PanelEntry, (resizeFirst id size l).length = l.length := by
  intro l
  induction l with
  | nil => rfl
  | cons e rest ih =>
    unfold resizeFirst
    split_ifs <;> simp [ih]

theorem setSizeAt_length (size : Int) :
    ∀ (l : List PanelEntry) (n : Nat), (setSizeAt size l n).length = l.length := by
  intro l
  induction l with
  | nil => intro n; rfl
  | cons e rest ih =>
    intro n
    cases n with
    | zero => rfl
    | succ m => simp [setSizeAt, ih]

theorem resize_active_panel_index (size : Int) (s : DockState) :
    (resize_active_panel size s).1.dock.active_panel_index =
      s.dock.active_panel_index := by
  unfold resize_active_panel
  split <;> rfl

theorem resize_active_panel_length (size : Int) (s : DockState) :
    (resize_active_panel size s).1.dock.panel_entries.length =
      s.dock.panel_entries.length := by
  unfold resize_active_panel
  split
  · exact setSizeAt_length _ _ _
  · rfl

theorem filter_panel_length_le_one (t : Nat) (q : PanelEntry → Bool) :
    ∀ l : List PanelEntry, (l.map (fun e => e.panel)).Nodup →
      (∀ e ∈ l, q e = true → e.panel = t) → (l.filter q).length ≤ 1 := by
  intro l
  induction l with
  | nil => intro _ _; simp
  | cons e rest ih =>
    intro hnd himp
    rw [List.map_cons, List.nodup_cons] at hnd
    by_cases hq : q e = true
    · rw [List.filter_cons_of_pos hq]
      have hrest : rest.filter q = [] := by
        rw [List.filter_eq_nil_iff]
        intro x hx hqx
        have hxt : x.panel = t := himp x (by simp [hx]) hqx
        have het : e.panel = t := himp e (by simp) hq
        exact hnd.1 (List.mem_map.mpr ⟨x, hx, by rw [hxt, het]⟩)
      rw [hrest]
      simp
    · rw [List.filter_cons_of_neg (by simpa using hq)]
      exact ih hnd.2 fun x hx hqx => himp x (by simp [hx]) hqx

end DockState

namespace DockState

theorem activate_panel_no_true_effect (ix : Nat) (s : DockState)
    (h : s.dock.panel_entries.length ≤ ix) :
    ∀ p, Effect.setActive p true ∉ (activate_panel ix s).2 := by
  intro p
  unfold activate_panel
  split_ifs with h1
  · dsimp only
    rw [List.getElem?_eq_none h]
    split
    · intro hmem
      simp only [List.append_nil, List.mem_append, List.mem_singleton] at hmem
      rcases hmem with hmem | hmem
      · injection hmem with h2 h3
        exact Bool.true_eq_false.mp h3
      · exact Effect.noConfusion hmem
    · intro hmem
      simp only [List.nil_append, List.mem_singleton] at hmem
      exact Effect.noConfusion hmem
  · intro hmem
    exact List.not_mem_nil _ hmem

theorem resizeFirst_no_match (id : Nat) (size : Int) :
    ∀ l : List PanelEntry, (∀ e ∈ l, e.panel ≠ id) → resizeFirst id size l = l := by
  intro l
  induction l with
  | nil => intro _; rfl
  | cons e rest ih =>
    intro h
    unfold resizeFirst
    rw [if_neg (h e (by simp)), ih fun x hx => h x (by simp [hx])]

theorem zoomFold_eq_zoomOutFold (t : Nat) (z : Bool) :
    ∀ (l : List PanelEntry) (acc : PanelMap × List Effect),
      (∀ e ∈ l, e.panel ≠ t) →
      l.foldl (zoomStep t z) acc = l.foldl zoomOutStep acc := by
  intro l
  induction l with
  | nil => intro acc _; rfl
  | cons e rest ih =>
    intro acc h
    rw [List.foldl_cons, List.foldl_cons]
    have hstep : zoomStep t z acc e = zoomOutStep acc e := by
      unfold zoomStep zoomOutStep
      rw [if_neg (h e (by simp))]
    rw [hstep]
    exact ih _ fun x hx => h x (by simp [hx])

theorem set_panel_zoomed_unregistered (t : Nat) (z : Bool) (s : DockState)
    (h : ∀ e ∈ s.dock.panel_entries, e.panel ≠ t) :
    set_panel_zoomed t z s = ((zoom_out s).1, (zoom_out s).2 ++ [Effect.notify]) := by
  unfold set_panel_zoomed zoom_out
  rw [zoomFold_eq_zoomOutFold t z s.dock.panel_entries (s.panels, []) h]

end DockState

/-- Index invariant I1, in a form that is inductive: with no entries the
active index is 0, with entries it is in bounds (Nat subtraction makes the
two cases one inequality). -/
def IndexInv (d : Dock) : Prop :=
  d.active_panel_index ≤ d.panel_entries.length - 1

theorem inv_applyOp (op : Op) (s : DockState) (h : IndexInv s.dock)
    (hs : ∀ ix, op = Op.activatePanel ix → ix < s.dock.panel_entries.length) :
    IndexInv (applyOp op s).1.dock := by
  cases op with
  | addPanel id size =>
    unfold IndexInv at *
    simp only [applyOp, DockState.add_panel, List.length_append, List.length_cons,
      List.length_nil]
    omega
  | removePanel id =>
    show IndexInv (DockState.remove_panel id s).1.dock
    cases hpos : position? (fun e => e.panel = id) s.dock.panel_entries with
    | none =>
      rw [DockState.remove_panel_not_found id s hpos]
      exact h
    | some k =>
      have hk : k < s.dock.panel_entries.length := position?_some_lt hpos
      obtain ⟨hent, hceq, hclt, hcgt⟩ := DockState.remove_panel_found id s k hpos
      have hlen : (DockState.remove_panel id s).1.dock.panel_entries.length =
          s.dock.panel_entries.length - 1 := by
        rw [hent, List.length_eraseIdx, if_pos hk]
      unfold IndexInv at *
      rw [hlen]
      rcases Nat.lt_trichotomy k s.dock.active_panel_index with hlt | heq | hgt
      · rw [(hclt hlt).1]
        omega
      · rw [(hceq heq).1]
        omega
      · rw [(hcgt hgt).1]
        omega
  | activatePanel ix =>
    have hix := hs ix rfl
    unfold IndexInv at *
    simp only [applyOp]
    rw [DockState.activate_panel_index, DockState.activate_panel_entries]
    omega
  | setOpen b =>
    unfold IndexInv at *
    simp only [applyOp]
    rw [DockState.set_open_index, DockState.set_open_entries]
    exact h
  | setPanelZoomed id z =>
    unfold IndexInv at *
    simp only [applyOp]
    rw [DockState.set_panel_zoomed_dock]
    exact h
  | zoomOut =>
    unfold IndexInv at *
    simp only [applyOp]
    rw [DockState.zoom_out_dock]
    exact h
  | resizePanel id size =>
    unfold IndexInv at *
    simp only [applyOp, DockState.resize_panel]
    rw [DockState.resizeFirst_length]
    exact h
  | resizeActivePanel size =>
    unfold IndexInv at *
    simp only [applyOp]
    rw [DockState.resize_active_panel_index]
    have := DockState.resize_active_panel_length size s
    omega

theorem safeOps_inv :
    ∀ (ops : List Op) (s : DockState), IndexInv s.dock →
      safeOps ops s = true → IndexInv (runOps ops s).dock := by
  intro ops
  induction ops with
  | nil => intro s h _; exact h
  | cons op rest ih =>
    intro s h hsafe
    simp only [safeOps, Bool.and_eq_true] at hsafe
    show IndexInv (runOps rest (applyOp op s).1).dock
    refine ih _ (inv_applyOp op s h ?_) hsafe.2
    intro ix hop
    subst hop
    simpa using hsafe.1

theorem getElem?_eraseIdx_lt {α : Type} :
    ∀ (l : List α) (k a : Nat), k < a → (l.eraseIdx k)[a - 1]? = l[a]? := by
  intro l
  induction l with
  | nil => intro k a _; simp [List.eraseIdx]
  | cons x xs ih =>
    intro k a hka
    cases k with
    | zero =>
      obtain ⟨b, rfl⟩ : ∃ b, a = b + 1 := ⟨a - 1, by omega⟩
      simp [List.eraseIdx_cons_zero]
    | succ k =>
      obtain ⟨b, rfl⟩ : ∃ b, a = b + 1 := ⟨a - 1, by omega⟩
      have hb : k < b := by omega
      obtain ⟨c, rfl⟩ : ∃ c, b = c + 1 := ⟨b - 1, by omega⟩
      have := ih k (c + 1) (by omega)
      simpa [List.eraseIdx_cons_succ] using this

/-! Example states used by the concrete witnesses and counterexamples. -/

/-- A dock with a single registered panel (id 1, default size 10). -/
def exAdd1 : DockState := (DockState.add_panel 1 10 initState).1

/-- An open dock with panels 1 and 2, panel 1 active and zoomed. -/
def exS2 : DockState :=
  { dock := { position := DockPosition.Left, panel_entries := [⟨1, 10⟩, ⟨2, 20⟩],
              is_open := true, active_panel_index := 0 },
    panels := fun j => if j = 1 then ⟨true, false⟩ else ⟨false, false⟩ }

/-- An open dock with panels 1 and 2, panel 2 (index 1) active. -/
def exS5 : DockState :=
  { dock := { position := DockPosition.Left, panel_entries := [⟨1, 10⟩, ⟨2, 20⟩],
              is_open := true, active_panel_index := 1 },
    panels := fun _ => ⟨false, false⟩ }

/-- An open dock with panels 1 and 2, panel 1 (index 0) active. -/
def exS6 : DockState :=
  { dock := { position := DockPosition.Left, panel_entries := [⟨1, 10⟩, ⟨2, 20⟩],
              is_open := true, active_panel_index := 0 },
    panels := fun _ => ⟨false, false⟩ }

/-- The operation sequence of spec Scenario B: add P1, P2, P3, activate
index 2, open the dock. -/
def opsB : List Op :=
  [Op.addPanel 1 300, Op.addPanel 2 300, Op.addPanel 3 300,
   Op.activatePanel 2, Op.setOpen true]

/-! The claims. -/

/-- C1 (amended): for every operation sequence from the initial state in
which each `activate_panel` uses an index that is in bounds when it runs,
whenever `panel_entries` is non-empty the active index is below the number
of entries.  (As stated, over arbitrary sequences, the claim fails:
`activate_panel` stores an out-of-bounds index — see the counterexample.) -/
theorem claim_c1 (ops : List Op) (h : safeOps ops initState = true) :
    (runOps ops initState).dock.panel_entries ≠ [] →
    (runOps ops initState).dock.active_panel_index <
      (runOps ops initState).dock.panel_entries.length := by
  intro hne
  have hinv : IndexInv (runOps ops initState).dock :=
    safeOps_inv ops initState (by simp [IndexInv, initState, Dock.new]) h
  unfold IndexInv at hinv
  have hlen : (runOps ops initState).dock.panel_entries.length ≠ 0 := by
    simpa [List.length_eq_zero] using hne
  omega

/-- Witness for C1's amended theorem at a concrete in-bounds sequence. -/
theorem claim_c1_witness :
    safeOps [Op.addPanel 1 10, Op.addPanel 2 20, Op.activatePanel 1]
      initState = true ∧
    (runOps [Op.addPanel 1 10, Op.addPanel 2 20, Op.activatePanel 1]
      initState).dock.active_panel_index <
      (runOps [Op.addPanel 1 10, Op.addPanel 2 20, Op.activatePanel 1]
        initState).dock.panel_entries.length :=
  ⟨by decide,
   claim_c1 [Op.addPanel 1 10, Op.addPanel 2 20, Op.activatePanel 1]
     (by decide) (by decide)⟩

/-- Counterexample to C1 as stated: after `add_panel(P1)` then
`activate_panel(1)` the collection is non-empty but the active index (1)
is not below the length (1). -/
theorem claim_c1_cex :
    (runOps [Op.addPanel 1 10, Op.activatePanel 1] initState).dock.panel_entries
      ≠ [] ∧
    ¬ ((runOps [Op.addPanel 1 10, Op.activatePanel 1]
        initState).dock.active_panel_index <
       (runOps [Op.addPanel 1 10, Op.activatePanel 1]
        initState).dock.panel_entries.length) := by
  decide

/-- C3 (amended): `set_open` with the current open flag and `activate_panel`
with the current active index are strict no-ops (state unchanged, no effect
at all).  `set_panel_zoomed` called with the target's current zoom value
invokes no `set_zoomed` callback on the target, but it still issues a
change notification unconditionally (so it is not a complete no-op — see
the counterexample). -/
theorem claim_c3 (s : DockState) (target : Nat) :
    DockState.set_open s.dock.is_open s = (s, []) ∧
    DockState.activate_panel s.dock.active_panel_index s = (s, []) ∧
    (∀ b, Effect.setZoomed target b ∉
      (DockState.set_panel_zoomed target ((s.panels target).zoomed) s).2) ∧
    Effect.notify ∈
      (DockState.set_panel_zoomed target ((s.panels target).zoomed) s).2 := by
  refine ⟨DockState.set_open_self s, DockState.activate_panel_self s, ?_, ?_⟩
  · intro b hmem
    have hfold := DockState.zoomFold_no_target_effect target
      ((s.panels target).zoomed) s.dock.panel_entries (s.panels, []) rfl
      (fun c hc => List.not_mem_nil _ hc)
    unfold DockState.set_panel_zoomed at hmem
    simp only [List.mem_append, List.mem_singleton] at hmem
    rcases hmem with hmem | hmem
    · exact hfold b hmem
    · exact Effect.noConfusion hmem
  · unfold DockState.set_panel_zoomed
    simp

/-- Counterexample to C3 as stated: on a dock holding panel 1 with zoom
currently false, `set_panel_zoomed(P1, false)` passes the current zoom
value yet still issues a change notification. -/
theorem claim_c3_cex :
    (exAdd1.panels 1).zoomed = false ∧
    Effect.notify ∈ (DockState.set_panel_zoomed 1 false exAdd1).2 ∧
    (DockState.set_panel_zoomed 1 false exAdd1).2 ≠ [] := by
  decide

/-- C4 (amended): in Scenario B — add P1, P2, P3, `activate_panel(2)`,
`set_open(true)` — `active_panel()` returns P3 and P1, P2 never receive
`set_active(true)`; but P3 receives `set_active(true)` exactly twice (once
from `activate_panel`, once more from `set_open`), not exactly once. -/
theorem claim_c4 :
    DockState.active_panel (runOpsE opsB initState).1 = some 3 ∧
    (runOpsE opsB initState).2.count (Effect.setActive 3 true) = 2 ∧
    Effect.setActive 1 true ∉ (runOpsE opsB initState).2 ∧
    Effect.setActive 2 true ∉ (runOpsE opsB initState).2 := by
  decide

/-- Counterexample to C4 as stated: `set_active(true)` is not invoked on P3
exactly once over the Scenario B sequence. -/
theorem claim_c4_cex :
    ¬ ((runOpsE opsB initState).2.count (Effect.setActive 3 true) = 1) := by
  decide

/-- C10: `activate_panel` is total; it always stores the requested index
(also when it is out of bounds), never changes the entry list, and for an
out-of-bounds index performs no `set_active(true)` callback because the
lookup at the new index yields none. -/
theorem claim_c10 (s : DockState) (ix : Nat) :
    (DockState.activate_panel ix s).1.dock.panel_entries =
      s.dock.panel_entries ∧
    (DockState.activate_panel ix s).1.dock.active_panel_index = ix ∧
    (s.dock.panel_entries.length ≤ ix →
      ∀ p, Effect.setActive p true ∉ (DockState.activate_panel ix s).2) :=
  ⟨DockState.activate_panel_entries ix s,
   DockState.activate_panel_index ix s,
   fun h => DockState.activate_panel_no_true_effect ix s h⟩

/-- C8: removing, resizing or querying the size of a panel that is not
registered (no entry carries its id) is a silent no-op: the state is
returned unchanged with no effects, and `panel_size` answers none.  The
operations are total functions, so no failure can be raised. -/
theorem claim_c8 (s : DockState) (id : Nat) (size : Int)
    (h : ∀ e ∈ s.dock.panel_entries, e.panel ≠ id) :
    DockState.remove_panel id s = (s, []) ∧
    DockState.resize_panel id size s = (s, []) ∧
    DockState.panel_size id s = none := by
  refine ⟨?_, ?_, ?_⟩
  · refine DockState.remove_panel_not_found id s (position?_eq_none ?_)
    intro e he
    simpa using h e he
  · unfold DockState.resize_panel
    rw [DockState.resizeFirst_no_match id size s.dock.panel_entries h]
  · unfold DockState.panel_size
    rw [List.find?_eq_none.mpr fun e he => by simpa using h e he]
    rfl

/-- Witness for C8 on a dock holding only panel 1, queried for panel 2. -/
theorem claim_c8_witness :
    (∀ e ∈ exAdd1.dock.panel_entries, e.panel ≠ 2) ∧
    (DockState.remove_panel 2 exAdd1 = (exAdd1, []) ∧
     DockState.resize_panel 2 5 exAdd1 = (exAdd1, []) ∧
     DockState.panel_size 2 exAdd1 = none) :=
  ⟨by decide, claim_c8 exAdd1 2 5 (by decide)⟩

/-- C9: `set_panel_zoomed` with an unregistered target is not a pure no-op:
it behaves exactly like `zoom_out` (clearing zoom on every currently zoomed
entry) followed by an unconditional change notification. -/
theorem claim_c9 (s : DockState) (id : Nat) (z : Bool)
    (h : ∀ e ∈ s.dock.panel_entries, e.panel ≠ id) :
    DockState.set_panel_zoomed id z s =
      ((DockState.zoom_out s).1, (DockState.zoom_out s).2 ++ [Effect.notify]) ∧
    (∀ j, (∃ e ∈ s.dock.panel_entries, e.panel = j) →
      ((DockState.set_panel_zoomed id z s).1.panels j).zoomed = false) ∧
    Effect.notify ∈ (DockState.set_panel_zoomed id z s).2 := by
  have heq := DockState.set_panel_zoomed_unregistered id z s h
  refine ⟨heq, ?_, ?_⟩
  · intro j hj
    rw [heq]
    exact DockState.zoom_out_zoomed_mem j s hj
  · unfold DockState.set_panel_zoomed
    simp

/-- Witness for C9 on a dock holding only panel 1 (zoomed via the panel
map) with unregistered target 2. -/
theorem claim_c9_witness :
    (∀ e ∈ exAdd1.dock.panel_entries, e.panel ≠ 2) ∧
    (DockState.set_panel_zoomed 2 true exAdd1 =
      ((DockState.zoom_out exAdd1).1,
       (DockState.zoom_out exAdd1).2 ++ [Effect.notify]) ∧
     (∀ j, (∃ e ∈ exAdd1.dock.panel_entries, e.panel = j) →
       ((DockState.set_panel_zoomed 2 true exAdd1).1.panels j).zoomed = false) ∧
     Effect.notify ∈ (DockState.set_panel_zoomed 2 true exAdd1).2) :=
  ⟨by decide, claim_c9 exAdd1 2 true (by decide)⟩

/-- C2: after `set_panel_zoomed(target, z)` on a dock whose entries hold
pairwise distinct panels, at most one entry reports zoom true; every entry
other than the target reports zoom false; the target (when registered)
reports exactly the requested value; the `set_zoomed` callback on the
target fires only when the requested value differs from the current one;
and `zoom_out` forces every entry's zoom to false. -/
theorem claim_c2 (s : DockState) (target : Nat) (z : Bool)
    (hnd : (s.dock.panel_entries.map (fun e => e.panel)).Nodup) :
    (s.dock.panel_entries.filter
      (fun e => ((DockState.set_panel_zoomed target z s).1.panels e.panel).zoomed)).length
      ≤ 1 ∧
    (∀ e ∈ s.dock.panel_entries, e.panel ≠ target →
      ((DockState.set_panel_zoomed target z s).1.panels e.panel).zoomed = false) ∧
    ((∃ e ∈ s.dock.panel_entries, e.panel = target) →
      ((DockState.set_panel_zoomed target z s).1.panels target).zoomed = z) ∧
    ((s.panels target).zoomed = z →
      ∀ b, Effect.setZoomed target b ∉
        (DockState.set_panel_zoomed target z s).2) ∧
    (∀ e ∈ s.dock.panel_entries,
      ((DockState.zoom_out s).1.panels e.panel).zoomed = false) := by
  have hother : ∀ e ∈ s.dock.panel_entries, e.panel ≠ target →
      ((DockState.set_panel_zoomed target z s).1.panels e.panel).zoomed = false := by
    intro e he hne
    rw [DockState.set_panel_zoomed_zoomed_mem target e.panel z s ⟨e, he, rfl⟩]
    rw [if_neg hne]
  refine ⟨?_, hother, ?_, ?_, ?_⟩
  · refine DockState.filter_panel_length_le_one target _ s.dock.panel_entries hnd ?_
    intro e he hq
    by_contra hne
    rw [hother e he hne] at hq
    exact Bool.false_ne_true hq
  · intro ht
    rw [DockState.set_panel_zoomed_zoomed_mem target target z s ?_]
    · rw [if_pos rfl]
    · obtain ⟨e, he, hep⟩ := ht
      exact ⟨e, he, hep⟩
  · intro hcur b hmem
    have hfold := DockState.zoomFold_no_target_effect target z
      s.dock.panel_entries (s.panels, []) hcur
      (fun c hc => List.not_mem_nil _ hc)
    unfold DockState.set_panel_zoomed at hmem
    simp only [List.mem_append, List.mem_singleton] at hmem
    rcases hmem with hmem | hmem
    · exact hfold b hmem
    · exact Effect.noConfusion hmem
  · intro e he
    exact DockState.zoom_out_zoomed_mem e.panel s ⟨e, he, rfl⟩

/-- Witness for C2 (Scenario E): dock holding panels 1 (zoomed) and 2;
`set_panel_zoomed(P2, true)`. -/
theorem claim_c2_witness :
    (exS2.dock.panel_entries.map (fun e => e.panel)).Nodup ∧
    ((exS2.dock.panel_entries.filter
      (fun e => ((DockState.set_panel_zoomed 2 true exS2).1.panels e.panel).zoomed)).length
      ≤ 1 ∧
    (∀ e ∈ exS2.dock.panel_entries, e.panel ≠ 2 →
      ((DockState.set_panel_zoomed 2 true exS2).1.panels e.panel).zoomed = false) ∧
    ((∃ e ∈ exS2.dock.panel_entries, e.panel = 2) →
      ((DockState.set_panel_zoomed 2 true exS2).1.panels 2).zoomed = true) ∧
    ((exS2.panels 2).zoomed = true →
      ∀ b, Effect.setZoomed 2 b ∉
        (DockState.set_panel_zoomed 2 true exS2).2) ∧
    (∀ e ∈ exS2.dock.panel_entries,
      ((DockState.zoom_out exS2).1.panels e.panel).zoomed = false)) :=
  ⟨by decide, claim_c2 exS2 2 true (by decide)⟩

/-- C5: removing a registered panel whose first entry sits at index `k`
erases exactly that entry; when `k` was the active index the index resets
to 0 and the dock closes; when `k` was below the active index the index
drops by exactly 1 and keeps designating the same entry; when `k` was above
the active index the index is unchanged. -/
theorem claim_c5 (s : DockState) (id k : Nat)
    (h : position? (fun e => e.panel = id) s.dock.panel_entries = some k) :
    (DockState.remove_panel id s).1.dock.panel_entries =
      s.dock.panel_entries.eraseIdx k ∧
    (k = s.dock.active_panel_index →
      (DockState.remove_panel id s).1.dock.active_panel_index = 0 ∧
      (DockState.remove_panel id s).1.dock.is_open = false) ∧
    (k < s.dock.active_panel_index →
      (DockState.remove_panel id s).1.dock.active_panel_index =
        s.dock.active_panel_index - 1 ∧
      ((DockState.remove_panel id s).1.dock.panel_entries)[(DockState.remove_panel id s).1.dock.active_panel_index]?
        = (s.dock.panel_entries)[s.dock.active_panel_index]?) ∧
    (s.dock.active_panel_index < k →
      (DockState.remove_panel id s).1.dock.active_panel_index =
        s.dock.active_panel_index) := by
  obtain ⟨hent, hceq, hclt, hcgt⟩ := DockState.remove_panel_found id s k h
  refine ⟨hent, hceq, fun hk => ⟨(hclt hk).1, ?_⟩, fun hk => (hcgt hk).1⟩
  rw [hent, (hclt hk).1]
  exact getElem?_eraseIdx_lt s.dock.panel_entries k s.dock.active_panel_index hk

/-- Witness for C5 (Scenario D shape): dock with panels 1 and 2, panel 2
(index 1) active; removing panel 1 (first index 0, below the active
index). -/
theorem claim_c5_witness :
    position? (fun e => e.panel = 1) exS5.dock.panel_entries = some 0 ∧
    (DockState.remove_panel 1 exS5).1.dock.panel_entries =
      exS5.dock.panel_entries.eraseIdx 0 ∧
    (DockState.remove_panel 1 exS5).1.dock.active_panel_index =
      exS5.dock.active_panel_index - 1 ∧
    ((DockState.remove_panel 1 exS5).1.dock.panel_entries)[(DockState.remove_panel 1 exS5).1.dock.active_panel_index]?
      = (exS5.dock.panel_entries)[exS5.dock.active_panel_index]? :=
  ⟨by decide,
   (claim_c5 exS5 1 0 (by decide)).1,
   ((claim_c5 exS5 1 0 (by decide)).2.2.1 (by decide)).1,
   ((claim_c5 exS5 1 0 (by decide)).2.2.1 (by decide)).2⟩

/-- C6: an event classified close-only from registered panel `id` (first
entry at index `ix`) closes the dock when that panel is the active one and
leaves everything untouched otherwise; an event classified as activating
opens the dock and activates that entry's index. -/
theorem claim_c6 (s : DockState) (id ix : Nat)
    (h : position? (fun e => e.panel = id) s.dock.panel_entries = some ix) :
    (DockState.active_panel s = some id →
      (DockState.handle_panel_event id false true s).1.dock.is_open = false ∧
      (DockState.handle_panel_event id false true s).1.dock.panel_entries =
        s.dock.panel_entries ∧
      (DockState.handle_panel_event id false true s).1.dock.active_panel_index =
        s.dock.active_panel_index) ∧
    (DockState.active_panel s ≠ some id →
      DockState.handle_panel_event id false true s = (s, [])) ∧
    (∀ c, (DockState.handle_panel_event id true c s).1.dock.is_open = true ∧
      (DockState.handle_panel_event id true c s).1.dock.active_panel_index = ix) := by
  refine ⟨fun hact => ?_, fun hnact => ?_, fun c => ?_⟩
  · unfold DockState.handle_panel_event
    rw [if_neg (by simp), if_pos ⟨by simp, hact⟩]
    exact ⟨DockState.set_open_is_open false s, DockState.set_open_entries false s,
      DockState.set_open_index false s⟩
  · unfold DockState.handle_panel_event
    rw [if_neg (by simp), if_neg (fun hc => hnact hc.2)]
  · unfold DockState.handle_panel_event
    rw [h]
    constructor
    · show (DockState.activate_panel ix
        (DockState.set_open true s).1).1.dock.is_open = true
      rw [DockState.activate_panel_is_open, DockState.set_open_is_open]
    · show (DockState.activate_panel ix
        (DockState.set_open true s).1).1.dock.active_panel_index = ix
      rw [DockState.activate_panel_index]

/-- Witness for C6 (Scenario F shape): dock with panels 1 and 2 open with
panel 1 active; a closing event from panel 1 closes the dock, an
activating event from panel 1 keeps it open at index 0. -/
theorem claim_c6_witness :
    (DockState.handle_panel_event 1 false true exS6).1.dock.is_open = false ∧
    (DockState.handle_panel_event 1 true true exS6).1.dock.is_open = true ∧
    (DockState.handle_panel_event 1 true true exS6).1.dock.active_panel_index = 0 :=
  ⟨((claim_c6 exS6 1 0 (by decide)).1 (by decide)).1,
   ((claim_c6 exS6 1 0 (by decide)).2.2 true).1,
   ((claim_c6 exS6 1 0 (by decide)).2.2 true).2⟩

/-- C7: `active_panel` answers the panel at the active index exactly when
the dock is open and the index is in bounds; `zoomed_panel` answers that
panel exactly when it additionally reports zoomed; `active_panel_size`
answers the active entry's stored size when open and none when closed;
`panel_size` answers the first matching entry's stored size and none for an
unregistered panel. -/
theorem claim_c7 (s : DockState) (p : Nat) :
    (DockState.active_panel s = some p ↔
      s.dock.is_open = true ∧
      ∃ e, (s.dock.panel_entries)[s.dock.active_panel_index]? = some e ∧
        e.panel = p) ∧
    (DockState.zoomed_panel s = some p ↔
      DockState.active_panel s = some p ∧ (s.panels p).zoomed = true) ∧
    (s.dock.is_open = false → DockState.active_panel_size s = none) ∧
    (s.dock.is_open = true →
      DockState.active_panel_size s =
        ((s.dock.panel_entries)[s.dock.active_panel_index]?).map (fun e => e.size)) ∧
    (∀ e, s.dock.panel_entries.find? (fun x => x.panel = p) = some e →
      DockState.panel_size p s = some e.size) ∧
    ((∀ e ∈ s.dock.panel_entries, e.panel ≠ p) →
      DockState.panel_size p s = none) := by
  refine ⟨?_, ?_, fun ho => ?_, fun ho => ?_, fun e he => ?_, fun hn => ?_⟩
  · unfold DockState.active_panel DockState.active_entry
    by_cases ho : s.dock.is_open
    · simp only [ho, if_true, Option.map_eq_some']
      constructor
      · rintro ⟨e, he, hep⟩
        exact ⟨by trivial, e, he, hep⟩
      · rintro ⟨_, e, he, hep⟩
        exact ⟨e, he, hep⟩
    · simp [ho]
  · constructor
    · intro hzp
      unfold DockState.zoomed_panel at hzp
      cases hae : DockState.active_entry s with
      | none =>
        rw [hae] at hzp
        exact absurd hzp (by simp)
      | some e =>
        rw [hae] at hzp
        have hzp2 : (if (s.panels e.panel).zoomed = true then some e.panel
            else none) = some p := hzp
        by_cases hz : (s.panels e.panel).zoomed = true
        · rw [if_pos hz] at hzp2
          have hep : e.panel = p := by simpa using hzp2
          subst hep
          refine ⟨?_, hz⟩
          unfold DockState.active_panel
          rw [hae]
          rfl
        · rw [if_neg hz] at hzp2
          exact absurd hzp2 (by simp)
    · rintro ⟨hap, hz⟩
      unfold DockState.active_panel at hap
      unfold DockState.zoomed_panel
      cases hae : DockState.active_entry s with
      | none =>
        rw [hae] at hap
        exact absurd hap (by simp)
      | some e =>
        rw [hae] at hap
        have hep : e.panel = p := by simpa using hap
        show (if (s.panels e.panel).zoomed = true then some e.panel else none)
          = some p
        rw [hep, if_pos hz]
  · unfold DockState.active_panel_size
    rw [ho]
    rfl
  · unfold DockState.active_panel_size
    rw [ho]
    rfl
  · unfold DockState.panel_size
    rw [he]
    rfl
  · unfold DockState.panel_size
    rw [List.find?_eq_none.mpr fun e he => by simpa using hn e he]
    rfl

end DockSpec
